import Mathlib

set_option linter.unusedSectionVars false

/-!
Verification of the `thread-safe-action` executor (`action/handler.go`).

The Go program is a single-consumer serializer: `handlerLoop` is the only
goroutine that dequeues `ctrlAction` submissions from the unbuffered
`ctrlChannel` and executes their task bodies against shared state, while
`SynchronousActionSend` / `AsynchronousActionSend` are the producer-side
protocols, racing delivery against cancellation of the handler context.

We embed the program as a small-step transition system `Step`:
* the shared mutable state a task closes over is `Config.shared : Nat`;
* a task body is a list of state mutations followed by a result and an
  error read off the final state (`TaskBody`), so that task execution is
  interleavable in principle and mutual exclusion is a theorem about the
  loop rather than a modelling artifact;
* the capacity-one reply/error channels of a synchronous submission are
  `Chan1` values (`make(chan T, 1)` plus its closed flag);
* the helper goroutine spawned by `SynchronousActionSend` (its `select`
  over `ctx.Done()`, `replyChan`, `errChan` and `send`) is a per-client
  state machine, and the blocking hand-off `h.ctrlChannel <- ctrlAction`
  is the `parkedCtrl` phase, released only by a loop dequeue — exactly as
  in the source, where that send has no `ctx.Done()` alternative;
* `g`-prefixed fields are ghost instrumentation (what the task produced,
  how often each channel was written/closed); they are written by the
  transitions but never read by them.
-/

namespace ThreadSafeAction

/-- A Go `interface{}` value carried as task argument, result or reply;
`none` is Go's `nil` (the zero value of `interface{}`). -/
abbrev GoVal := Option Nat

/-- A Go `error` value produced by a task body; `none` is the `nil` error. -/
abbrev GoErr := Option Nat

/-- The body a task runs inside the serializer loop: a sequence `ops` of
mutations of the shared state, executed in order, after which the returned
result and error are read off the final state.  This is the shape of the
Go closures handed to the handler: side effects on captured state plus a
`(interface{}, error)` return. -/
structure TaskBody where
  ops : List (Nat → Nat)
  res : Nat → GoVal
  err : Nat → GoErr

/-- `ThreadSafeTask` (`func(interface{}) (interface{}, error)`): the
argument value selects the body that will run. -/
def ThreadSafeTask := GoVal → TaskBody

/-- `controlThreadSafeContext` from handler.go: the task together with the
arguments it will be applied to. -/
structure ControlThreadSafeContext where
  controlFunc : ThreadSafeTask
  args : GoVal

/-- `controlThreadSafeContext.execute`: apply the stored task to the
stored arguments, yielding the body the loop will run. -/
def ControlThreadSafeContext.execute (c : ControlThreadSafeContext) : TaskBody :=
  c.controlFunc c.args

/-- Run a list of state mutations in order. -/
def applyOps (l : List (Nat → Nat)) (s : Nat) : Nat :=
  l.foldl (fun st f => f st) s

/-- A Go channel of buffer capacity one (`make(chan T, 1)`), together with
its closed flag.  `buf = some v` means one value is buffered. -/
structure Chan1 (α : Type) where
  buf : Option α
  closed : Bool
deriving DecidableEq

/-- Buffer contents of a possibly-`nil` channel (`none` models a `nil`
channel reference, as carried by asynchronous `ctrlAction`s). -/
def chBuf {α : Type} : Option (Chan1 α) → Option α
  | some ch => ch.buf
  | none => none

/-- Closed flag of a possibly-`nil` channel. -/
def chClosed {α : Type} : Option (Chan1 α) → Bool
  | some ch => ch.closed
  | none => false

/-- The failure a synchronous caller can observe in its `err` variable:
either `context.Canceled` (from `h.ctx.Err()`) or an error the task body
returned (read from `ctrlErrorChannel`). -/
inductive Failure where
  | ctxCanceled : Failure
  | taskErr (e : Nat) : Failure
deriving DecidableEq

/-- Where a submission's caller-side protocol currently stands.
`selecting` is the helper goroutine of `SynchronousActionSend` sitting in
its `select`; `parkedCtrl` is a goroutine blocked in
`h.ctrlChannel <- ctrlAction` (for an asynchronous submission this is the
caller itself, whose whole body is that send); `finished` means the call
has returned to the caller. -/
inductive Phase where
  | selecting
  | parkedCtrl
  | finished
deriving DecidableEq

/-- The immutable data of a `ctrlAction`: the task context and the `sync`
mode flag. -/
structure CtrlSpec where
  ctrlThreadSafeCtx : ControlThreadSafeContext
  sync : Bool

/-- The body the loop will execute for submission `i`. -/
def bodyOf {ι : Type} (spec : ι → CtrlSpec) (i : ι) : TaskBody :=
  (spec i).ctrlThreadSafeCtx.execute

/-- The mutable per-submission state: the helper goroutine's locals
(`received`, `err`, `reply`), the buffered `send` token, the two
capacity-one channels of the `ctrlAction` (`none` when the Go field is a
`nil` channel, as for asynchronous submissions), and ghost
instrumentation: what the task produced when it ran (`gExecuted`) and how
often each channel has been written and closed. -/
structure Client where
  phase : Phase
  received : Bool
  errv : Option Failure
  replyv : GoVal
  sendBuf : Bool
  ctrlChannelReplies : Option (Chan1 GoVal)
  ctrlErrorChannel : Option (Chan1 Nat)
  gExecuted : Option (GoVal × GoErr)
  gReplyWrites : Nat
  gReplyCloses : Nat
  gErrWrites : Nat
  gErrCloses : Nat

/-- The serializer loop: waiting in its `select` (`idle`), mid-way through
executing the dequeued submission `i` with `rest` of its mutations still
to run, or returned after observing `ctx.Done()` (`stopped`). -/
inductive LoopState (ι : Type) where
  | idle
  | executing (i : ι) (rest : List (Nat → Nat))
  | stopped

/-- A global configuration: the cancellation scope flag (`ctx.Done()`
closed or not), the shared state owned by the serializer, the loop, all
submissions, and the ghost dequeue order. -/
structure Config (ι : Type) where
  scopeEnded : Bool
  shared : Nat
  loop : LoopState ι
  clients : ι → Client
  execOrder : List ι

/-- Writing one value into a capacity-one channel and closing it, the
single use `handleSyncReply` performs (`defer close(ch); ch <- v`). -/
def Chan1.sendAndClose {α : Type} (_ch : Chan1 α) (v : α) : Chan1 α :=
  { buf := some v, closed := true }

/-- `handleSyncReply` from handler.go: if the task returned a non-nil
error, send it on the error channel (when non-nil) and close that channel;
otherwise send the result on the reply channel (when non-nil) and close
that channel.  Only the channel that was used is closed.  Ghost write and
close counters are bumped alongside. -/
def handleSyncReply (cl : Client) (e : GoErr) (result : GoVal) : Client :=
  match e with
  | some errVal =>
      match cl.ctrlErrorChannel with
      | some ch =>
          { cl with
            ctrlErrorChannel := some (ch.sendAndClose errVal)
            gErrWrites := cl.gErrWrites + 1
            gErrCloses := cl.gErrCloses + 1 }
      | none => cl
  | none =>
      match cl.ctrlChannelReplies with
      | some ch =>
          { cl with
            ctrlChannelReplies := some (ch.sendAndClose result)
            gReplyWrites := cl.gReplyWrites + 1
            gReplyCloses := cl.gReplyCloses + 1 }
      | none => cl

/-- Ghost record of what the task produced when it executed. -/
def markExecuted (cl : Client) (result : GoVal) (e : GoErr) : Client :=
  { cl with gExecuted := some (result, e) }

/-- A possibly-`nil` channel has room for a buffered send and is not
closed (a send on a full buffer would block, a send on a closed channel
would panic). -/
def chanFree {α : Type} : Option (Chan1 α) → Prop
  | some ch => ch.buf = none ∧ ch.closed = false
  | none => True

/-- The channel `handleSyncReply` is about to use can accept the send. -/
def sendTargetFree (cl : Client) (e : GoErr) : Prop :=
  match e with
  | some _ => chanFree cl.ctrlErrorChannel
  | none => chanFree cl.ctrlChannelReplies

variable {ι : Type} [DecidableEq ι]

/-- One scheduler step of the whole program.  Each constructor is one of
the atomic actions of `handler.go`; where the Go `select` has several
ready cases, several constructors are enabled and the choice is
nondeterministic, as in Go. -/
inductive Step (spec : ι → CtrlSpec) : Config ι → Config ι → Prop
  /-- The external cancellation scope ends: `ctx.Done()` becomes closed. -/
  | scopeEnd (c : Config ι) :
      c.scopeEnded = false →
      Step spec c { c with scopeEnded := true }
  /-- `handlerLoop` takes the `<-h.ctx.Done()` case of its `select` and
  returns. -/
  | loopStop (c : Config ι) :
      c.loop = .idle →
      c.scopeEnded = true →
      Step spec c { c with loop := .stopped }
  /-- `handlerLoop` takes the `ctrl := <-h.ctrlChannel` case: a parked
  sender is released (its blocking send completes, so a synchronous helper
  goes back to its `select` loop and an asynchronous caller returns), and
  the loop starts running `ctrl.ctrlThreadSafeCtx.execute()`. -/
  | loopDequeue (c : Config ι) (i : ι) :
      c.loop = .idle →
      (c.clients i).phase = .parkedCtrl →
      Step spec c
        { c with
          loop := .executing i (bodyOf spec i).ops
          clients := Function.update c.clients i
            ({ c.clients i with
               phase := if (spec i).sync then .selecting else .finished })
          execOrder := c.execOrder ++ [i] }
  /-- The task body performs its next mutation of the shared state, inside
  the loop's call to `execute`. -/
  | loopMicro (c : Config ι) (i : ι) (f : Nat → Nat) (rest : List (Nat → Nat)) :
      c.loop = .executing i (f :: rest) →
      Step spec c { c with shared := f c.shared, loop := .executing i rest }
  /-- The task body returns `(result, err)`; then, exactly as in
  `handlerLoop`, `if ctrl.sync { h.handleSyncReply(ctrl, err, result) }`,
  and the loop goes back to its `select`.  The buffered send inside
  `handleSyncReply` requires room in the target channel. -/
  | loopFinish (c : Config ι) (i : ι) :
      c.loop = .executing i [] →
      ((spec i).sync = true →
        sendTargetFree (c.clients i) ((bodyOf spec i).err c.shared)) →
      Step spec c
        { c with
          loop := .idle
          clients := Function.update c.clients i
            (markExecuted
              (if (spec i).sync then
                handleSyncReply (c.clients i)
                  ((bodyOf spec i).err c.shared)
                  ((bodyOf spec i).res c.shared)
              else c.clients i)
              ((bodyOf spec i).res c.shared)
              ((bodyOf spec i).err c.shared)) }
  /-- The helper's `select` takes `<-h.ctx.Done()`: `err = h.ctx.Err()`,
  the loop condition `!received && err == nil` fails, `chanDone` is
  signalled and the caller returns. -/
  | selDone (c : Config ι) (i : ι) :
      (c.clients i).phase = .selecting →
      c.scopeEnded = true →
      Step spec c
        { c with
          clients := Function.update c.clients i
            ({ c.clients i with errv := some .ctxCanceled, phase := .finished }) }
  /-- The helper's `select` takes `reply = <-replyChan` on a buffered
  value: `received = true`, the loop exits and the caller returns. -/
  | selReply (c : Config ι) (i : ι) (ch : Chan1 GoVal) (v : GoVal) :
      (c.clients i).phase = .selecting →
      (c.clients i).ctrlChannelReplies = some ch →
      ch.buf = some v →
      Step spec c
        { c with
          clients := Function.update c.clients i
            ({ c.clients i with
               ctrlChannelReplies := some ({ ch with buf := none })
               replyv := v, received := true, phase := .finished }) }
  /-- The helper's `select` takes `err = <-errChan` on a buffered value:
  `err` becomes non-nil, the loop exits and the caller returns. -/
  | selErr (c : Config ι) (i : ι) (ch : Chan1 Nat) (e : Nat) :
      (c.clients i).phase = .selecting →
      (c.clients i).ctrlErrorChannel = some ch →
      ch.buf = some e →
      Step spec c
        { c with
          clients := Function.update c.clients i
            ({ c.clients i with
               ctrlErrorChannel := some ({ ch with buf := none })
               errv := some (.taskErr e), phase := .finished }) }
  /-- The helper's `select` takes `<-send` (the buffered token written by
  the caller) and commits to the blocking, non-abortable
  `h.ctrlChannel <- ctrlAction`. -/
  | selSend (c : Config ι) (i : ι) :
      (c.clients i).phase = .selecting →
      (c.clients i).sendBuf = true →
      Step spec c
        { c with
          clients := Function.update c.clients i
            ({ c.clients i with sendBuf := false, phase := .parkedCtrl }) }
  /-- The helper's `select` reads the reply channel after it was closed
  and drained: a receive on a closed empty channel yields the zero value
  immediately (`reply = nil`, `received = true`). -/
  | selReplyClosed (c : Config ι) (i : ι) (ch : Chan1 GoVal) :
      (c.clients i).phase = .selecting →
      (c.clients i).ctrlChannelReplies = some ch →
      ch.buf = none →
      ch.closed = true →
      Step spec c
        { c with
          clients := Function.update c.clients i
            ({ c.clients i with replyv := none, received := true, phase := .finished }) }
  /-- The helper's `select` reads the error channel after it was closed
  and drained: the zero value is the nil error, so `err` stays nil and the
  loop simply iterates again. -/
  | selErrClosed (c : Config ι) (i : ι) (ch : Chan1 Nat) :
      (c.clients i).phase = .selecting →
      (c.clients i).ctrlErrorChannel = some ch →
      ch.buf = none →
      ch.closed = true →
      Step spec c c

/-- The submission state set up by `SynchronousActionSend` before its
helper goroutine first runs (fresh empty capacity-one channels, `send`
token already buffered), respectively by `AsynchronousActionSend` (caller
immediately parked on the control channel, `nil` channels). -/
def initClient (s : CtrlSpec) : Client :=
  { phase := if s.sync then .selecting else .parkedCtrl
    received := false
    errv := none
    replyv := none
    sendBuf := s.sync
    ctrlChannelReplies := if s.sync then some ({ buf := none, closed := false }) else none
    ctrlErrorChannel := if s.sync then some ({ buf := none, closed := false }) else none
    gExecuted := none
    gReplyWrites := 0
    gReplyCloses := 0
    gErrWrites := 0
    gErrCloses := 0 }

/-- The whole system right after `NewThreadSafeActionHandler` started the
loop and every caller issued its submission: scope alive, loop idle in its
`select`, no task executed yet. -/
def initConfig (spec : ι → CtrlSpec) (σ0 : Nat) : Config ι :=
  { scopeEnded := false
    shared := σ0
    loop := .idle
    clients := fun i => initClient (spec i)
    execOrder := [] }

/-- Reachability under the scheduler. -/
def Reachable (spec : ι → CtrlSpec) (c c' : Config ι) : Prop :=
  Relation.ReflTransGen (Step spec) c c'

/-- Shared state after serially applying the whole bodies of the listed
submissions, in order. -/
def foldOrder (spec : ι → CtrlSpec) (σ0 : Nat) (l : List ι) : Nat :=
  l.foldl (fun s j => applyOps (bodyOf spec j).ops s) σ0

theorem applyOps_append (l₁ l₂ : List (Nat → Nat)) (s : Nat) :
    applyOps (l₁ ++ l₂) s = applyOps l₂ (applyOps l₁ s) := by
  simp [applyOps, List.foldl_append]

theorem foldOrder_append (spec : ι → CtrlSpec) (σ0 : Nat) (l : List ι) (i : ι) :
    foldOrder spec σ0 (l ++ [i]) =
      applyOps (bodyOf spec i).ops (foldOrder spec σ0 l) := by
  simp [foldOrder, List.foldl_append]


/-- Channel and counter discipline of a synchronous submission: both
channels exist (non-`nil`), at most one buffered write ever happens across
the two channels, a channel is closed exactly when it has been written
(the single `defer close` after the single send), a buffered value is
exactly what the executed task produced, and a drained written channel
means the helper consumed the value into its locals. -/
structure SyncOK (cl : Client) : Prop where
  rPresent : cl.ctrlChannelReplies.isSome = true
  ePresent : cl.ctrlErrorChannel.isSome = true
  sumLe : cl.gReplyWrites + cl.gErrWrites ≤ 1
  rCloses : cl.gReplyCloses = cl.gReplyWrites
  eCloses : cl.gErrCloses = cl.gErrWrites
  rClosedIff : chClosed cl.ctrlChannelReplies = true ↔ cl.gReplyWrites = 1
  eClosedIff : chClosed cl.ctrlErrorChannel = true ↔ cl.gErrWrites = 1
  rBufVal : ∀ v, chBuf cl.ctrlChannelReplies = some v → cl.gExecuted = some (v, none)
  eBufVal : ∀ e, chBuf cl.ctrlErrorChannel = some e → ∃ r, cl.gExecuted = some (r, some e)
  rBufNone : cl.gReplyWrites = 0 → chBuf cl.ctrlChannelReplies = none
  eBufNone : cl.gErrWrites = 0 → chBuf cl.ctrlErrorChannel = none
  exNone : cl.gExecuted = none → cl.gReplyWrites = 0 ∧ cl.gErrWrites = 0
  exOk : ∀ r, cl.gExecuted = some (r, none) → cl.gReplyWrites = 1 ∧ cl.gErrWrites = 0
  exErr : ∀ r e, cl.gExecuted = some (r, some e) → cl.gErrWrites = 1 ∧ cl.gReplyWrites = 0
  rConsumed : cl.gReplyWrites = 1 → chBuf cl.ctrlChannelReplies = none → cl.received = true
  eConsumed : cl.gErrWrites = 1 → chBuf cl.ctrlErrorChannel = none →
    ∃ e, cl.errv = some (.taskErr e)
  finComplete : cl.phase = .finished → cl.received = true ∨ cl.errv ≠ none

/-- An asynchronous submission has no helper goroutine, no channels and no
observable completion data of any kind: the caller parks on the control
channel and returns as soon as (and only because) the hand-off completes. -/
structure AsyncOK (cl : Client) : Prop where
  noRecv : cl.received = false
  noErr : cl.errv = none
  noReply : cl.replyv = none
  noSend : cl.sendBuf = false
  noRch : cl.ctrlChannelReplies = none
  noEch : cl.ctrlErrorChannel = none
  notSelecting : cl.phase ≠ .selecting
  zRW : cl.gReplyWrites = 0
  zRC : cl.gReplyCloses = 0
  zEW : cl.gErrWrites = 0
  zEC : cl.gErrCloses = 0

variable {ι : Type} [DecidableEq ι]

/-- Everything that is always true of one submission and its caller-side
protocol state in any reachable configuration. -/
structure ClientOK (spec : ι → CtrlSpec) (c : Config ι) (i : ι) : Prop where
  syncOk : (spec i).sync = true → SyncOK (c.clients i)
  asyncOk : (spec i).sync = false → AsyncOK (c.clients i)
  recvTrue : (c.clients i).received = true →
    (c.clients i).phase = .finished ∧ (c.clients i).errv = none ∧
      ∃ r, (c.clients i).gExecuted = some (r, none) ∧ (c.clients i).replyv = r
  recvFalse : (c.clients i).received = false → (c.clients i).replyv = none
  errTask : ∀ e, (c.clients i).errv = some (.taskErr e) →
    (c.clients i).phase = .finished ∧ ∃ r, (c.clients i).gExecuted = some (r, some e)
  errCanceled : (c.clients i).errv = some .ctxCanceled →
    (c.clients i).phase = .finished ∧ c.scopeEnded = true
  activeClean : (c.clients i).phase = .selecting ∨ (c.clients i).phase = .parkedCtrl →
    (c.clients i).received = false ∧ (c.clients i).errv = none
  parkedOk : (c.clients i).phase = .parkedCtrl →
    (c.clients i).sendBuf = false ∧ i ∉ c.execOrder ∧ (c.clients i).gExecuted = none
  sendOk : (c.clients i).sendBuf = true → i ∉ c.execOrder ∧ (c.clients i).gExecuted = none
  loopExec : ∀ rest, c.loop = .executing i rest →
    (c.clients i).gExecuted = none ∧ i ∈ c.execOrder ∧ (c.clients i).phase ≠ .parkedCtrl
  execMem : (c.clients i).gExecuted ≠ none → i ∈ c.execOrder

/-- The shared state is always a serial, non-interleaved application of
the dequeued submissions: complete bodies for all already finished ones,
plus a prefix of the mutations of the one currently executing (submission
bodies never interleave with one another). -/
def loopShape (spec : ι → CtrlSpec) (σ0 : Nat) (lp : LoopState ι) (sh : Nat)
    (ord : List ι) : Prop :=
  match lp with
  | .executing i rest =>
      ∃ pre don, ord = pre ++ [i] ∧ (bodyOf spec i).ops = don ++ rest ∧
        sh = applyOps don (foldOrder spec σ0 pre)
  | _ => sh = foldOrder spec σ0 ord

/-- The global invariant of the executor. -/
structure Inv (spec : ι → CtrlSpec) (σ0 : Nat) (c : Config ι) : Prop where
  shape : loopShape spec σ0 c.loop c.shared c.execOrder
  nodup : c.execOrder.Nodup
  ok : ∀ i, ClientOK spec c i

/-- `ClientOK` transfers to any configuration in which this client is
unchanged, membership of `i` in the dequeue order is preserved both ways,
the scope flag stays set, and the loop executes `i` only if it already
did. -/
theorem ClientOK.transfer {spec : ι → CtrlSpec} {c c' : Config ι} {i : ι}
    (h : ClientOK spec c i)
    (hcl : c'.clients i = c.clients i)
    (hmemNot : i ∉ c.execOrder → i ∉ c'.execOrder)
    (hmemIn : i ∈ c.execOrder → i ∈ c'.execOrder)
    (hscope : c.scopeEnded = true → c'.scopeEnded = true)
    (hloop : ∀ rest, c'.loop = .executing i rest →
      ∃ rest₀, c.loop = .executing i rest₀) :
    ClientOK spec c' i := by
  refine ⟨?_, ?_, ?_, ?_, ?_, ?_, ?_, ?_, ?_, ?_, ?_⟩
  · intro hs; rw [hcl]; exact h.syncOk hs
  · intro hs; rw [hcl]; exact h.asyncOk hs
  · rw [hcl]; exact h.recvTrue
  · rw [hcl]; exact h.recvFalse
  · rw [hcl]; exact h.errTask
  · rw [hcl]; intro he
    exact ⟨(h.errCanceled he).1, hscope (h.errCanceled he).2⟩
  · rw [hcl]; exact h.activeClean
  · rw [hcl]; intro hp
    exact ⟨(h.parkedOk hp).1, hmemNot (h.parkedOk hp).2.1, (h.parkedOk hp).2.2⟩
  · rw [hcl]; intro hs
    exact ⟨hmemNot (h.sendOk hs).1, (h.sendOk hs).2⟩
  · rw [hcl]; intro rest hr
    obtain ⟨rest₀, hr₀⟩ := hloop rest hr
    exact ⟨(h.loopExec rest₀ hr₀).1, hmemIn (h.loopExec rest₀ hr₀).2.1,
      (h.loopExec rest₀ hr₀).2.2⟩
  · rw [hcl]; intro hg
    exact hmemIn (h.execMem hg)

theorem clientOK_init (spec : ι → CtrlSpec) (σ0 : Nat) (i : ι) :
    ClientOK spec (initConfig spec σ0) i := by
  refine ⟨?_, ?_, ?_, ?_, ?_, ?_, ?_, ?_, ?_, ?_, ?_⟩
  · intro hs
    refine ⟨?_, ?_, ?_, ?_, ?_, ?_, ?_, ?_, ?_, ?_, ?_, ?_, ?_, ?_, ?_, ?_, ?_⟩ <;>
      simp [initConfig, initClient, hs, chClosed, chBuf]
  · intro hs
    refine ⟨?_, ?_, ?_, ?_, ?_, ?_, ?_, ?_, ?_, ?_, ?_⟩ <;>
      simp [initConfig, initClient, hs]
  all_goals
    by_cases hs : (spec i).sync <;> simp [initConfig, initClient, hs]

theorem inv_init (spec : ι → CtrlSpec) (σ0 : Nat) :
    Inv spec σ0 (initConfig spec σ0) := by
  refine ⟨?_, ?_, fun i => clientOK_init spec σ0 i⟩
  · simp [loopShape, initConfig, foldOrder]
  · simp [initConfig]


theorem inv_scopeEnd {spec : ι → CtrlSpec} {σ0 : Nat} {c : Config ι}
    (hinv : Inv spec σ0 c) :
    Inv spec σ0 { c with scopeEnded := true } := by
  refine ⟨hinv.shape, hinv.nodup, fun j => ?_⟩
  exact (hinv.ok j).transfer rfl id id (fun _ => rfl) (fun rest hr => ⟨rest, hr⟩)

theorem inv_loopStop {spec : ι → CtrlSpec} {σ0 : Nat} {c : Config ι}
    (hinv : Inv spec σ0 c) (hl : c.loop = .idle) :
    Inv spec σ0 { c with loop := .stopped } := by
  refine ⟨?_, hinv.nodup, fun j => ?_⟩
  · have hs := hinv.shape
    rw [hl] at hs
    simpa [loopShape] using hs
  · exact (hinv.ok j).transfer rfl id id (fun h => h) (fun rest hr => by cases hr)

theorem inv_loopMicro {spec : ι → CtrlSpec} {σ0 : Nat} {c : Config ι} {i : ι}
    {f : Nat → Nat} {rest : List (Nat → Nat)}
    (hinv : Inv spec σ0 c) (hl : c.loop = .executing i (f :: rest)) :
    Inv spec σ0 { c with shared := f c.shared, loop := .executing i rest } := by
  refine ⟨?_, hinv.nodup, fun j => ?_⟩
  · have hs := hinv.shape
    rw [hl] at hs
    simp only [loopShape] at hs ⊢
    obtain ⟨pre, don, hord, hops, hsh⟩ := hs
    refine ⟨pre, don ++ [f], hord, ?_, ?_⟩
    · rw [hops, List.append_assoc]
      rfl
    · rw [hsh, applyOps_append]
      rfl
  · refine (hinv.ok j).transfer rfl id id (fun h => h) ?_
    intro r' hr
    injection hr with h1 h2
    subst h1
    exact ⟨f :: rest, hl⟩

theorem inv_selDone {spec : ι → CtrlSpec} {σ0 : Nat} {c : Config ι} {i : ι}
    (hinv : Inv spec σ0 c)
    (hph : (c.clients i).phase = .selecting)
    (hsc : c.scopeEnded = true) :
    Inv spec σ0
      { c with
        clients := Function.update c.clients i
          ({ c.clients i with errv := some .ctxCanceled, phase := .finished }) } := by
  refine ⟨hinv.shape, hinv.nodup, fun j => ?_⟩
  by_cases hj : j = i
  · subst hj
    have old := hinv.ok j
    have hclean := old.activeClean (Or.inl hph)
    refine ⟨?_, ?_, ?_, ?_, ?_, ?_, ?_, ?_, ?_, ?_, ?_⟩ <;>
      simp only [Function.update_same]
    · intro hs
      have S := old.syncOk hs
      refine ⟨S.rPresent, S.ePresent, S.sumLe, S.rCloses, S.eCloses, S.rClosedIff,
        S.eClosedIff, S.rBufVal, S.eBufVal, S.rBufNone, S.eBufNone, S.exNone,
        S.exOk, S.exErr, S.rConsumed, ?_, ?_⟩
      · intro h1 h2
        obtain ⟨e, he⟩ := S.eConsumed h1 h2
        rw [hclean.2] at he
        cases he
      · intro _
        simp
    · intro hs
      exact absurd hph ((old.asyncOk hs).notSelecting)
    · intro hr
      rw [hclean.1] at hr
      cases hr
    · intro _
      exact old.recvFalse hclean.1
    · intro e he
      simp at he
    · intro _
      exact ⟨by trivial, hsc⟩
    · intro h
      rcases h with h | h <;> cases h
    · intro h
      cases h
    · intro hsb
      exact old.sendOk hsb
    · intro rest hr
      have h3 := old.loopExec rest hr
      exact ⟨h3.1, h3.2.1, by simp⟩
    · intro hg
      exact old.execMem hg
  · refine ((hinv.ok j).transfer ?_ id id (fun h => h) (fun rest hr => ⟨rest, hr⟩))
    simp [Function.update_noteq hj]


theorem inv_selReply {spec : ι → CtrlSpec} {σ0 : Nat} {c : Config ι} {i : ι}
    {ch : Chan1 GoVal} {v : GoVal}
    (hinv : Inv spec σ0 c)
    (hph : (c.clients i).phase = .selecting)
    (hch : (c.clients i).ctrlChannelReplies = some ch)
    (hbuf : ch.buf = some v) :
    Inv spec σ0
      { c with
        clients := Function.update c.clients i
          ({ c.clients i with
             ctrlChannelReplies := some ({ ch with buf := none })
             replyv := v, received := true, phase := .finished }) } := by
  refine ⟨hinv.shape, hinv.nodup, fun j => ?_⟩
  by_cases hj : j = i
  · subst hj
    have old := hinv.ok j
    have hclean := old.activeClean (Or.inl hph)
    have hsync : (spec j).sync = true := by
      by_contra hs
      have hn := (old.asyncOk (by simpa using hs)).noRch
      rw [hch] at hn
      cases hn
    have S := old.syncOk hsync
    have hgex : (c.clients j).gExecuted = some (v, none) := by
      apply S.rBufVal
      rw [hch]
      simpa [chBuf] using hbuf
    refine ⟨?_, ?_, ?_, ?_, ?_, ?_, ?_, ?_, ?_, ?_, ?_⟩ <;>
      simp only [Function.update_same]
    · intro _
      refine ⟨by simp, S.ePresent, S.sumLe, S.rCloses, S.eCloses, ?_, S.eClosedIff,
        ?_, S.eBufVal, ?_, S.eBufNone, ?_, S.exOk, S.exErr, ?_, ?_, ?_⟩
      · have h1 := S.rClosedIff
        rw [hch] at h1
        simpa [chClosed] using h1
      · intro w hw
        simp [chBuf] at hw
      · intro _
        simp [chBuf]
      · intro h
        rw [hgex] at h
        cases h
      · intro _ _
        trivial
      · intro h1 _
        have h1' : (c.clients j).gErrWrites = 1 := h1
        have h2 := (S.exOk v hgex).2
        exact absurd h1' (by omega)
      · intro _
        exact Or.inl (by trivial)
    · intro hs
      rw [hsync] at hs
      cases hs
    · intro _
      exact ⟨by trivial, hclean.2, v, hgex, by trivial⟩
    · intro h
      simp at h
    · intro e he
      rw [hclean.2] at he
      cases he
    · intro he
      rw [hclean.2] at he
      cases he
    · intro h
      rcases h with h | h <;> simp at h
    · intro h
      simp at h
    · exact old.sendOk
    · intro rest hr
      have h3 := old.loopExec rest hr
      exact ⟨h3.1, h3.2.1, by simp⟩
    · intro _
      exact old.execMem (by simp [hgex])
  · refine ((hinv.ok j).transfer ?_ id id (fun h => h) (fun rest hr => ⟨rest, hr⟩))
    simp [Function.update_noteq hj]

theorem inv_selErr {spec : ι → CtrlSpec} {σ0 : Nat} {c : Config ι} {i : ι}
    {ch : Chan1 Nat} {e : Nat}
    (hinv : Inv spec σ0 c)
    (hph : (c.clients i).phase = .selecting)
    (hch : (c.clients i).ctrlErrorChannel = some ch)
    (hbuf : ch.buf = some e) :
    Inv spec σ0
      { c with
        clients := Function.update c.clients i
          ({ c.clients i with
             ctrlErrorChannel := some ({ ch with buf := none })
             errv := some (.taskErr e), phase := .finished }) } := by
  refine ⟨hinv.shape, hinv.nodup, fun j => ?_⟩
  by_cases hj : j = i
  · subst hj
    have old := hinv.ok j
    have hclean := old.activeClean (Or.inl hph)
    have hsync : (spec j).sync = true := by
      by_contra hs
      have hn := (old.asyncOk (by simpa using hs)).noEch
      rw [hch] at hn
      cases hn
    have S := old.syncOk hsync
    have hgex : ∃ r, (c.clients j).gExecuted = some (r, some e) := by
      apply S.eBufVal
      rw [hch]
      simpa [chBuf] using hbuf
    obtain ⟨r0, hgex⟩ := hgex
    refine ⟨?_, ?_, ?_, ?_, ?_, ?_, ?_, ?_, ?_, ?_, ?_⟩ <;>
      simp only [Function.update_same]
    · intro _
      refine ⟨S.rPresent, by simp, S.sumLe, S.rCloses, S.eCloses, S.rClosedIff, ?_,
        S.rBufVal, ?_, S.rBufNone, ?_, ?_, ?_, S.exErr, ?_, ?_, ?_⟩
      · have h1 := S.eClosedIff
        rw [hch] at h1
        simpa [chClosed] using h1
      · intro w hw
        simp [chBuf] at hw
      · intro _
        simp [chBuf]
      · intro h
        rw [hgex] at h
        cases h
      · intro r' hr
        rw [hgex] at hr
        simp at hr
      · intro h1 _
        have h1' : (c.clients j).gReplyWrites = 1 := h1
        have h2 := (S.exErr r0 e hgex).2
        exact absurd h1' (by omega)
      · intro _ _
        exact ⟨e, by trivial⟩
      · intro _
        exact Or.inr (by simp)
    · intro hs
      rw [hsync] at hs
      cases hs
    · intro h
      rw [hclean.1] at h
      cases h
    · intro _
      exact old.recvFalse hclean.1
    · intro e' he
      have he2 : e = e' := by
        simpa using he
      subst he2
      exact ⟨by trivial, r0, hgex⟩
    · intro he
      simp at he
    · intro h
      rcases h with h | h <;> simp at h
    · intro h
      simp at h
    · exact old.sendOk
    · intro rest hr
      have h3 := old.loopExec rest hr
      exact ⟨h3.1, h3.2.1, by simp⟩
    · intro _
      exact old.execMem (by simp [hgex])
  · refine ((hinv.ok j).transfer ?_ id id (fun h => h) (fun rest hr => ⟨rest, hr⟩))
    simp [Function.update_noteq hj]

theorem inv_selSend {spec : ι → CtrlSpec} {σ0 : Nat} {c : Config ι} {i : ι}
    (hinv : Inv spec σ0 c)
    (hph : (c.clients i).phase = .selecting)
    (hsb : (c.clients i).sendBuf = true) :
    Inv spec σ0
      { c with
        clients := Function.update c.clients i
          ({ c.clients i with sendBuf := false, phase := .parkedCtrl }) } := by
  refine ⟨hinv.shape, hinv.nodup, fun j => ?_⟩
  by_cases hj : j = i
  · subst hj
    have old := hinv.ok j
    have hclean := old.activeClean (Or.inl hph)
    have hso := old.sendOk hsb
    refine ⟨?_, ?_, ?_, ?_, ?_, ?_, ?_, ?_, ?_, ?_, ?_⟩ <;>
      simp only [Function.update_same]
    · intro hs
      have S := old.syncOk hs
      refine ⟨S.rPresent, S.ePresent, S.sumLe, S.rCloses, S.eCloses, S.rClosedIff,
        S.eClosedIff, S.rBufVal, S.eBufVal, S.rBufNone, S.eBufNone, S.exNone,
        S.exOk, S.exErr, S.rConsumed, S.eConsumed, ?_⟩
      · intro h
        simp at h
    · intro hs
      exact absurd hph (old.asyncOk hs).notSelecting
    · intro h
      rw [hclean.1] at h
      cases h
    · intro _
      exact old.recvFalse hclean.1
    · intro e he
      rw [hclean.2] at he
      cases he
    · intro he
      rw [hclean.2] at he
      cases he
    · intro _
      exact ⟨hclean.1, hclean.2⟩
    · intro _
      exact ⟨by trivial, hso.1, hso.2⟩
    · intro h
      simp at h
    · intro rest hr
      have h3 := old.loopExec rest hr
      exact absurd h3.2.1 hso.1
    · intro hg
      exact (hg hso.2).elim
  · refine ((hinv.ok j).transfer ?_ id id (fun h => h) (fun rest hr => ⟨rest, hr⟩))
    simp [Function.update_noteq hj]

theorem inv_selReplyClosed {spec : ι → CtrlSpec} {σ0 : Nat} {c : Config ι} {i : ι}
    {ch : Chan1 GoVal}
    (hinv : Inv spec σ0 c)
    (hph : (c.clients i).phase = .selecting)
    (hch : (c.clients i).ctrlChannelReplies = some ch)
    (hbn : ch.buf = none)
    (hcl : ch.closed = true) :
    Inv spec σ0
      { c with
        clients := Function.update c.clients i
          ({ c.clients i with replyv := none, received := true, phase := .finished }) } := by
  exfalso
  have old := hinv.ok i
  have hsync : (spec i).sync = true := by
    by_contra hs
    have hn := (old.asyncOk (by simpa using hs)).noRch
    rw [hch] at hn
    cases hn
  have S := old.syncOk hsync
  have hrw : (c.clients i).gReplyWrites = 1 := by
    apply S.rClosedIff.mp
    rw [hch]
    simpa [chClosed] using hcl
  have hrecv := S.rConsumed hrw (by rw [hch]; simpa [chBuf] using hbn)
  have hfin := (old.recvTrue hrecv).1
  rw [hph] at hfin
  cases hfin


theorem inv_loopDequeue {spec : ι → CtrlSpec} {σ0 : Nat} {c : Config ι} {i : ι}
    (hinv : Inv spec σ0 c)
    (hl : c.loop = .idle)
    (hph : (c.clients i).phase = .parkedCtrl) :
    Inv spec σ0
      { c with
        loop := .executing i (bodyOf spec i).ops
        clients := Function.update c.clients i
          ({ c.clients i with
             phase := if (spec i).sync then .selecting else .finished })
        execOrder := c.execOrder ++ [i] } := by
  have old := hinv.ok i
  have hpk := old.parkedOk hph
  have hclean := old.activeClean (Or.inr hph)
  refine ⟨?_, ?_, fun j => ?_⟩
  · have hs := hinv.shape
    rw [hl] at hs
    simp only [loopShape] at hs ⊢
    exact ⟨c.execOrder, [], rfl, rfl, hs⟩
  · refine List.nodup_append.mpr ⟨hinv.nodup, by simp, ?_⟩
    intro a ha hb
    simp at hb
    subst hb
    exact hpk.2.1 ha
  · by_cases hj : j = i
    · subst hj
      refine ⟨?_, ?_, ?_, ?_, ?_, ?_, ?_, ?_, ?_, ?_, ?_⟩ <;>
        simp only [Function.update_same]
      · intro hs
        have S := old.syncOk hs
        refine ⟨S.rPresent, S.ePresent, S.sumLe, S.rCloses, S.eCloses, S.rClosedIff,
          S.eClosedIff, S.rBufVal, S.eBufVal, S.rBufNone, S.eBufNone, S.exNone,
          S.exOk, S.exErr, S.rConsumed, S.eConsumed, ?_⟩
        intro h
        simp [hs] at h
      · intro hs
        have A := old.asyncOk hs
        refine ⟨A.noRecv, A.noErr, A.noReply, A.noSend, A.noRch, A.noEch, ?_,
          A.zRW, A.zRC, A.zEW, A.zEC⟩
        simp [hs]
      · intro h
        rw [hclean.1] at h
        cases h
      · intro _
        exact old.recvFalse hclean.1
      · intro e he
        rw [hclean.2] at he
        cases he
      · intro he
        rw [hclean.2] at he
        cases he
      · intro _
        exact ⟨hclean.1, hclean.2⟩
      · intro h
        by_cases hs : (spec j).sync = true <;> simp [hs] at h
      · intro h
        rw [hpk.1] at h
        cases h
      · intro rest hr
        refine ⟨hpk.2.2, by simp, ?_⟩
        by_cases hs : (spec j).sync = true <;> simp [hs]
      · intro _
        simp
    · refine (hinv.ok j).transfer ?_ ?_ ?_ (fun h => h) ?_
      · simp [Function.update_noteq hj]
      · intro h
        simp [List.mem_append, hj, h]
      · intro h
        simp [List.mem_append, h]
      · intro rest hr
        injection hr with h1 h2
        exact absurd h1.symm hj

theorem inv_loopFinish {spec : ι → CtrlSpec} {σ0 : Nat} {c : Config ι} {i : ι}
    (hinv : Inv spec σ0 c)
    (hl : c.loop = .executing i []) :
    Inv spec σ0
      { c with
        loop := .idle
        clients := Function.update c.clients i
          (markExecuted
            (if (spec i).sync then
              handleSyncReply (c.clients i)
                ((bodyOf spec i).err c.shared)
                ((bodyOf spec i).res c.shared)
            else c.clients i)
            ((bodyOf spec i).res c.shared)
            ((bodyOf spec i).err c.shared)) } := by
  have old := hinv.ok i
  have hle := old.loopExec [] hl
  refine ⟨?_, hinv.nodup, fun j => ?_⟩
  · have hs := hinv.shape
    rw [hl] at hs
    simp only [loopShape] at hs ⊢
    obtain ⟨pre, don, hord, hops, hsh⟩ := hs
    rw [List.append_nil] at hops
    rw [hord, foldOrder_append, hops]
    exact hsh
  · by_cases hj : j = i
    · subst hj
      by_cases hsync : (spec j).sync = true
      · have S := old.syncOk hsync
        have hrw0 : (c.clients j).gReplyWrites = 0 := (S.exNone hle.1).1
        have hew0 : (c.clients j).gErrWrites = 0 := (S.exNone hle.1).2
        have hrbuf := S.rBufNone hrw0
        have hebuf := S.eBufNone hew0
        rcases herr : (bodyOf spec j).err c.shared with _ | ev
        · obtain ⟨rch, hrch⟩ := Option.isSome_iff_exists.mp S.rPresent
          refine ⟨?_, ?_, ?_, ?_, ?_, ?_, ?_, ?_, ?_, ?_, ?_⟩ <;>
            simp only [Function.update_same, if_pos hsync, herr, handleSyncReply,
              hrch, markExecuted, Chan1.sendAndClose]
          · intro _
            refine ⟨by simp, S.ePresent, ?_, ?_, S.eCloses, ?_, S.eClosedIff,
              ?_, ?_, ?_, ?_, ?_, ?_, ?_, ?_, ?_, ?_⟩ <;> (try simp only [])
            · have h1 := S.sumLe
              omega
            · have h1 := S.rCloses
              omega
            · simp [chClosed, hrw0]
            · intro w hw
              simp [chBuf] at hw
              subst hw
              trivial
            · intro w hw
              rw [hebuf] at hw
              cases hw
            · intro h
              exact absurd h (by omega)
            · intro _
              exact hebuf
            · intro h
              cases h
            · intro r hr
              exact ⟨by omega, hew0⟩
            · intro r e hr
              simp at hr
            · intro _ h
              simp [chBuf] at h
            · intro h _
              exact absurd h (by omega)
            · intro h
              exact S.finComplete h
          · intro hs
            rw [hsync] at hs
            cases hs
          · intro h
            obtain ⟨r, hr, _⟩ := (old.recvTrue h).2.2
            rw [hle.1] at hr
            cases hr
          · intro h
            exact old.recvFalse h
          · intro e he
            obtain ⟨r, hr⟩ := (old.errTask e he).2
            rw [hle.1] at hr
            cases hr
          · intro he
            exact old.errCanceled he
          · intro h
            exact old.activeClean h
          · intro h
            exact absurd h hle.2.2
          · intro h
            exact absurd hle.2.1 (old.sendOk h).1
          · intro rest hr
            cases hr
          · intro _
            exact hle.2.1
        · obtain ⟨ech, hech⟩ := Option.isSome_iff_exists.mp S.ePresent
          refine ⟨?_, ?_, ?_, ?_, ?_, ?_, ?_, ?_, ?_, ?_, ?_⟩ <;>
            simp only [Function.update_same, if_pos hsync, herr, handleSyncReply,
              hech, markExecuted, Chan1.sendAndClose]
          · intro _
            refine ⟨S.rPresent, by simp, ?_, S.rCloses, ?_, S.rClosedIff, ?_,
              ?_, ?_, ?_, ?_, ?_, ?_, ?_, ?_, ?_, ?_⟩ <;> (try simp only [])
            · have h1 := S.sumLe
              omega
            · have h1 := S.eCloses
              omega
            · simp [chClosed, hew0]
            · intro w hw
              rw [hrbuf] at hw
              cases hw
            · intro w hw
              simp [chBuf] at hw
              subst hw
              exact ⟨(bodyOf spec j).res c.shared, by trivial⟩
            · intro _
              exact hrbuf
            · intro h
              exact absurd h (by omega)
            · intro h
              cases h
            · intro r hr
              simp at hr
            · intro r e hr
              simp at hr
              exact ⟨by omega, hrw0⟩
            · intro h _
              exact absurd h (by omega)
            · intro _ h
              simp [chBuf] at h
            · intro h
              exact S.finComplete h
          · intro hs
            rw [hsync] at hs
            cases hs
          · intro h
            obtain ⟨r, hr, _⟩ := (old.recvTrue h).2.2
            rw [hle.1] at hr
            cases hr
          · intro h
            exact old.recvFalse h
          · intro e he
            obtain ⟨r, hr⟩ := (old.errTask e he).2
            rw [hle.1] at hr
            cases hr
          · intro he
            exact old.errCanceled he
          · intro h
            exact old.activeClean h
          · intro h
            exact absurd h hle.2.2
          · intro h
            exact absurd hle.2.1 (old.sendOk h).1
          · intro rest hr
            cases hr
          · intro _
            exact hle.2.1
      · have hsf : (spec j).sync = false := by
          simpa using hsync
        have A := old.asyncOk hsf
        refine ⟨?_, ?_, ?_, ?_, ?_, ?_, ?_, ?_, ?_, ?_, ?_⟩ <;>
          simp only [Function.update_same, if_neg hsync, markExecuted]
        · intro hs
          rw [hsf] at hs
          cases hs
        · intro _
          exact ⟨A.noRecv, A.noErr, A.noReply, A.noSend, A.noRch, A.noEch,
            A.notSelecting, A.zRW, A.zRC, A.zEW, A.zEC⟩
        · intro h
          rw [A.noRecv] at h
          cases h
        · intro _
          exact A.noReply
        · intro e he
          rw [A.noErr] at he
          cases he
        · intro he
          rw [A.noErr] at he
          cases he
        · intro _
          exact ⟨A.noRecv, A.noErr⟩
        · intro h
          exact absurd h hle.2.2
        · intro h
          rw [A.noSend] at h
          cases h
        · intro rest hr
          cases hr
        · intro _
          exact hle.2.1
    · refine (hinv.ok j).transfer ?_ id id (fun h => h) ?_
      · simp [Function.update_noteq hj]
      · intro rest hr
        cases hr


/-- Every scheduler step preserves the global invariant. -/
theorem inv_step {spec : ι → CtrlSpec} {σ0 : Nat} {c c' : Config ι}
    (hstep : Step spec c c') (hinv : Inv spec σ0 c) : Inv spec σ0 c' := by
  cases hstep with
  | scopeEnd h => exact inv_scopeEnd hinv
  | loopStop h1 h2 => exact inv_loopStop hinv h1
  | loopDequeue i h1 h2 => exact inv_loopDequeue hinv h1 h2
  | loopMicro i f rest h => exact inv_loopMicro hinv h
  | loopFinish i h1 h2 => exact inv_loopFinish hinv h1
  | selDone i h1 h2 => exact inv_selDone hinv h1 h2
  | selReply i ch v h1 h2 h3 => exact inv_selReply hinv h1 h2 h3
  | selErr i ch e h1 h2 h3 => exact inv_selErr hinv h1 h2 h3
  | selSend i h1 h2 => exact inv_selSend hinv h1 h2
  | selReplyClosed i ch h1 h2 h3 h4 => exact inv_selReplyClosed hinv h1 h2 h3 h4
  | selErrClosed i ch h1 h2 h3 h4 => exact hinv

theorem inv_reachable {spec : ι → CtrlSpec} {σ0 : Nat} {c c' : Config ι}
    (h : Reachable spec c c') (hinv : Inv spec σ0 c) : Inv spec σ0 c' := by
  induction h with
  | refl => exact hinv
  | tail hsteps hstep ih => exact inv_step hstep ih

/-- The invariant holds in every configuration reachable from the initial
one. -/
theorem inv_of_init {spec : ι → CtrlSpec} {σ0 : Nat} {c : Config ι}
    (h : Reachable spec (initConfig spec σ0) c) : Inv spec σ0 c :=
  inv_reachable h (inv_init spec σ0)

/-- Once `handlerLoop` has returned, no step restarts it, and no step can
touch a submission that is not in its helper `select` (a parked sender
stays parked, a finished caller stays finished, channels keep their
state): nothing ever dequeues again. -/
theorem step_frozen {spec : ι → CtrlSpec} {c c' : Config ι} {i : ι}
    (hstep : Step spec c c') (hl : c.loop = .stopped)
    (hph : (c.clients i).phase ≠ .selecting) :
    c'.loop = .stopped ∧ c'.clients i = c.clients i := by
  cases hstep with
  | scopeEnd h => exact ⟨hl, rfl⟩
  | loopStop h1 h2 => rw [hl] at h1; cases h1
  | loopDequeue j h1 h2 => rw [hl] at h1; cases h1
  | loopMicro j f rest h => rw [hl] at h; cases h
  | loopFinish j h1 h2 => rw [hl] at h1; cases h1
  | selDone j h1 h2 =>
      refine ⟨hl, ?_⟩
      by_cases hij : i = j
      · subst hij; exact absurd h1 hph
      · simp [Function.update_noteq hij]
  | selReply j ch v h1 h2 h3 =>
      refine ⟨hl, ?_⟩
      by_cases hij : i = j
      · subst hij; exact absurd h1 hph
      · simp [Function.update_noteq hij]
  | selErr j ch e h1 h2 h3 =>
      refine ⟨hl, ?_⟩
      by_cases hij : i = j
      · subst hij; exact absurd h1 hph
      · simp [Function.update_noteq hij]
  | selSend j h1 h2 =>
      refine ⟨hl, ?_⟩
      by_cases hij : i = j
      · subst hij; exact absurd h1 hph
      · simp [Function.update_noteq hij]
  | selReplyClosed j ch h1 h2 h3 h4 =>
      refine ⟨hl, ?_⟩
      by_cases hij : i = j
      · subst hij; exact absurd h1 hph
      · simp [Function.update_noteq hij]
  | selErrClosed j ch h1 h2 h3 h4 => exact ⟨hl, rfl⟩

/-- Transitive closure of `step_frozen`: after the loop has stopped, a
submission that is not sitting in a helper `select` keeps its entire state
forever — in particular a caller parked in the blocking, non-abortable
`h.ctrlChannel <- ctrlAction` send is parked forever. -/
theorem reach_frozen {spec : ι → CtrlSpec} {c c' : Config ι} {i : ι}
    (h : Relation.ReflTransGen (Step spec) c c') (hl : c.loop = .stopped)
    (hph : (c.clients i).phase ≠ .selecting) :
    c'.clients i = c.clients i ∧ c'.loop = .stopped := by
  induction h with
  | refl => exact ⟨rfl, hl⟩
  | tail hsteps hstep ih =>
      obtain ⟨hcl, hlp⟩ := ih
      have h2 := step_frozen hstep hlp (by rw [hcl]; exact hph)
      exact ⟨h2.2.trans hcl, h2.1⟩


/-- C1: mutual exclusion and serializability.  Only the serializer loop's
steps ever touch `Config.shared`, and whenever the loop is not in the
middle of a task (back in its `select`, or stopped), the shared state
equals the serial, non-interleaved application of the complete bodies of
some duplicate-free sequence of the submitted tasks (the dequeue order) —
never a torn or partially-applied update. -/
theorem serial_execution_of_tasks {spec : ι → CtrlSpec} {σ0 : Nat} {c : Config ι}
    (h : Reachable spec (initConfig spec σ0) c)
    (hl : c.loop = .idle ∨ c.loop = .stopped) :
    ∃ order : List ι, order.Nodup ∧ c.shared = foldOrder spec σ0 order := by
  have hinv := inv_of_init h
  refine ⟨c.execOrder, hinv.nodup, ?_⟩
  have hs := hinv.shape
  rcases hl with hl | hl <;> rw [hl] at hs <;> simpa [loopShape] using hs

/-- C2 (amended): a synchronous submission resolves with
`context.Canceled` only if the cancellation scope has ended by then.  (The
converse of the original claim fails: the resolution may also happen after
the task body has already executed, see the counterexample.) -/
theorem canceled_implies_scope_ended {spec : ι → CtrlSpec} {σ0 : Nat}
    {c : Config ι} {i : ι}
    (h : Reachable spec (initConfig spec σ0) c)
    (hc : (c.clients i).errv = some .ctxCanceled) :
    c.scopeEnded = true :=
  (((inv_of_init h).ok i).errCanceled hc).2

/-- C5: in a run whose scope never ended, a synchronous submission that
finished after its task executed and produced no failure returns exactly
the produced result, with the failure unset. -/
theorem sync_result_returned_verbatim {spec : ι → CtrlSpec} {σ0 : Nat}
    {c : Config ι} {i : ι} {r : GoVal}
    (h : Reachable spec (initConfig spec σ0) c)
    (hsync : (spec i).sync = true)
    (hfin : (c.clients i).phase = .finished)
    (hex : (c.clients i).gExecuted = some (r, none))
    (hscope : c.scopeEnded = false) :
    (c.clients i).errv = none ∧ (c.clients i).received = true ∧
      (c.clients i).replyv = r := by
  have hinv := inv_of_init h
  have old := hinv.ok i
  have herr : (c.clients i).errv = none := by
    rcases hv : (c.clients i).errv with _ | f
    · rfl
    · cases f with
      | ctxCanceled =>
          have h2 := (old.errCanceled hv).2
          rw [hscope] at h2
          cases h2
      | taskErr e =>
          obtain ⟨r', hr'⟩ := (old.errTask e hv).2
          rw [hex] at hr'
          simp at hr'
  have hrecv : (c.clients i).received = true := by
    rcases (old.syncOk hsync).finComplete hfin with h1 | h1
    · exact h1
    · exact absurd herr h1
  obtain ⟨r', hr', hrep⟩ := (old.recvTrue hrecv).2.2
  rw [hex] at hr'
  simp at hr'
  subst hr'
  exact ⟨herr, hrecv, hrep⟩

/-- A synchronous submission that finished, in a run whose scope never
ended, after its task executed and produced a failure: `handleSyncReply`
routed only the error, so the caller observes exactly that task error, an
untouched (zero-valued) reply variable, and no received result. -/
theorem sync_failure_outcome {spec : ι → CtrlSpec} {σ0 : Nat}
    {c : Config ι} {i : ι} {r : GoVal} {e : Nat}
    (h : Reachable spec (initConfig spec σ0) c)
    (hsync : (spec i).sync = true)
    (hfin : (c.clients i).phase = .finished)
    (hex : (c.clients i).gExecuted = some (r, some e))
    (hscope : c.scopeEnded = false) :
    (c.clients i).errv = some (.taskErr e) ∧ (c.clients i).replyv = none ∧
      (c.clients i).received = false := by
  have hinv := inv_of_init h
  have old := hinv.ok i
  have hnr : (c.clients i).received = false := by
    cases hrc : (c.clients i).received
    · rfl
    · obtain ⟨r', hr', _⟩ := (old.recvTrue hrc).2.2
      rw [hex] at hr'
      simp at hr'
  have herrv : (c.clients i).errv = some (.taskErr e) := by
    rcases (old.syncOk hsync).finComplete hfin with h1 | h1
    · rw [hnr] at h1
      cases h1
    · rcases hv : (c.clients i).errv with _ | f
      · exact absurd hv h1
      · cases f with
        | ctxCanceled =>
            have h2 := (old.errCanceled hv).2
            rw [hscope] at h2
            cases h2
        | taskErr e' =>
            obtain ⟨r', hr'⟩ := (old.errTask e' hv).2
            rw [hex] at hr'
            simp at hr'
            rw [hr'.2]
  exact ⟨herrv, old.recvFalse hnr, hnr⟩

/-- C6: with the scope never ended, a synchronous submission whose task
executed and yielded a failure returns the zero-valued result and the
task's failure verbatim. -/
theorem sync_failure_returned_verbatim {spec : ι → CtrlSpec} {σ0 : Nat}
    {c : Config ι} {i : ι} {r : GoVal} {e : Nat}
    (h : Reachable spec (initConfig spec σ0) c)
    (hsync : (spec i).sync = true)
    (hfin : (c.clients i).phase = .finished)
    (hex : (c.clients i).gExecuted = some (r, some e))
    (hscope : c.scopeEnded = false) :
    (c.clients i).errv = some (.taskErr e) ∧ (c.clients i).replyv = none := by
  have h3 := sync_failure_outcome h hsync hfin hex hscope
  exact ⟨h3.1, h3.2.1⟩

/-- C9: when a task returns both a non-nil result and a non-nil failure,
`handleSyncReply` takes the failure branch: the caller gets the failure
and the zero-valued reply — the produced result value is discarded, never
delivered. -/
theorem sync_failure_priority_discards_result {spec : ι → CtrlSpec} {σ0 : Nat}
    {c : Config ι} {i : ι} {rv : Nat} {e : Nat}
    (h : Reachable spec (initConfig spec σ0) c)
    (hsync : (spec i).sync = true)
    (hfin : (c.clients i).phase = .finished)
    (hex : (c.clients i).gExecuted = some (some rv, some e))
    (hscope : c.scopeEnded = false) :
    (c.clients i).errv = some (.taskErr e) ∧ (c.clients i).replyv = none ∧
      (c.clients i).replyv ≠ some rv := by
  have h3 := sync_failure_outcome h hsync hfin hex hscope
  refine ⟨h3.1, h3.2.1, ?_⟩
  rw [h3.2.1]
  simp

/-- C7 (amended): across the two capacity-one channels of a synchronous
submission at most one buffered write ever happens; every channel close is
paired with the single write on that same channel (so the unused channel
is never closed, no channel is closed twice, and no channel is written
after a close); once the task has executed exactly one of the two channels
has been written; and if the submission was never dequeued (cancellation
won the race to deliver), neither channel has been written or closed. -/
theorem channel_single_use_discipline {spec : ι → CtrlSpec} {σ0 : Nat}
    {c : Config ι} {i : ι}
    (h : Reachable spec (initConfig spec σ0) c)
    (hsync : (spec i).sync = true) :
    (c.clients i).gReplyWrites + (c.clients i).gErrWrites ≤ 1 ∧
    (c.clients i).gReplyCloses = (c.clients i).gReplyWrites ∧
    (c.clients i).gErrCloses = (c.clients i).gErrWrites ∧
    (∀ r e', (c.clients i).gExecuted = some (r, e') →
      (c.clients i).gReplyWrites + (c.clients i).gErrWrites = 1) ∧
    (i ∉ c.execOrder →
      (c.clients i).gReplyWrites = 0 ∧ (c.clients i).gErrWrites = 0 ∧
      chClosed (c.clients i).ctrlChannelReplies = false ∧
      chClosed (c.clients i).ctrlErrorChannel = false) := by
  have hinv := inv_of_init h
  have old := hinv.ok i
  have S := old.syncOk hsync
  refine ⟨S.sumLe, S.rCloses, S.eCloses, ?_, ?_⟩
  · intro r e' hex
    rcases e' with _ | e'
    · have h2 := S.exOk r hex
      omega
    · have h2 := S.exErr r e' hex
      omega
  · intro hmem
    have hgex : (c.clients i).gExecuted = none := by
      rcases hgv : (c.clients i).gExecuted with _ | p
      · rfl
      · exact absurd (old.execMem (by rw [hgv]; simp)) hmem
    have hz := S.exNone hgex
    refine ⟨hz.1, hz.2, ?_, ?_⟩
    · cases hcv : chClosed (c.clients i).ctrlChannelReplies
      · rfl
      · have h2 := S.rClosedIff.mp hcv
        omega
    · cases hcv : chClosed (c.clients i).ctrlErrorChannel
      · rfl
      · have h2 := S.eClosedIff.mp hcv
        omega

/-- C8: an asynchronous submission that was dequeued and executed (its
produced result and failure are recorded in the ghost state) delivers
nothing to its caller: no received flag, no error, no reply value, and no
reply or failure channel even exists (`ctrlAction` carries nil channels in
async mode, and `handlerLoop` skips `handleSyncReply` when `sync` is
false). -/
theorem async_completion_unobservable {spec : ι → CtrlSpec} {σ0 : Nat}
    {c : Config ι} {i : ι} {r : GoVal} {e : GoErr}
    (h : Reachable spec (initConfig spec σ0) c)
    (hasync : (spec i).sync = false)
    (hex : (c.clients i).gExecuted = some (r, e)) :
    i ∈ c.execOrder ∧ (c.clients i).received = false ∧
      (c.clients i).errv = none ∧ (c.clients i).replyv = none ∧
      (c.clients i).ctrlChannelReplies = none ∧
      (c.clients i).ctrlErrorChannel = none := by
  have hinv := inv_of_init h
  have A := (hinv.ok i).asyncOk hasync
  exact ⟨(hinv.ok i).execMem (by rw [hex]; simp), A.noRecv, A.noErr, A.noReply,
    A.noRch, A.noEch⟩

/-- C10: whenever the serializer loop is executing a synchronous
submission, that submission's capacity-one reply and error channels are
still empty and unclosed, so the single buffered send `handleSyncReply`
will perform cannot block (and cannot panic on a closed channel) — even if
the caller has already returned with a cancellation failure and abandoned
both channels. -/
theorem sync_delivery_never_blocks {spec : ι → CtrlSpec} {σ0 : Nat}
    {c : Config ι} {i : ι} {rest : List (Nat → Nat)}
    (h : Reachable spec (initConfig spec σ0) c)
    (hl : c.loop = .executing i rest)
    (hsync : (spec i).sync = true) :
    chBuf (c.clients i).ctrlChannelReplies = none ∧
    chBuf (c.clients i).ctrlErrorChannel = none ∧
    chClosed (c.clients i).ctrlChannelReplies = false ∧
    chClosed (c.clients i).ctrlErrorChannel = false ∧
    sendTargetFree (c.clients i) ((bodyOf spec i).err c.shared) := by
  have hinv := inv_of_init h
  have old := hinv.ok i
  have S := old.syncOk hsync
  have hgex := (old.loopExec rest hl).1
  have hz := S.exNone hgex
  have hrb := S.rBufNone hz.1
  have heb := S.eBufNone hz.2
  have hrc : chClosed (c.clients i).ctrlChannelReplies = false := by
    cases hcv : chClosed (c.clients i).ctrlChannelReplies
    · rfl
    · have h2 := S.rClosedIff.mp hcv
      omega
  have hec : chClosed (c.clients i).ctrlErrorChannel = false := by
    cases hcv : chClosed (c.clients i).ctrlErrorChannel
    · rfl
    · have h2 := S.eClosedIff.mp hcv
      omega
  refine ⟨hrb, heb, hrc, hec, ?_⟩
  obtain ⟨rch, hrch⟩ := Option.isSome_iff_exists.mp S.rPresent
  obtain ⟨ech, hech⟩ := Option.isSome_iff_exists.mp S.ePresent
  have hrb2 : rch.buf = none := by rw [hrch] at hrb; simpa [chBuf] using hrb
  have hrc2 : rch.closed = false := by rw [hrch] at hrc; simpa [chClosed] using hrc
  have heb2 : ech.buf = none := by rw [hech] at heb; simpa [chBuf] using heb
  have hec2 : ech.closed = false := by rw [hech] at hec; simpa [chClosed] using hec
  rcases hev : (bodyOf spec i).err c.shared with _ | ev
  · simp only [sendTargetFree, hrch, chanFree]
    exact ⟨hrb2, hrc2⟩
  · simp only [sendTargetFree, hech, chanFree]
    exact ⟨heb2, hec2⟩


/-! Concrete runs of the system, used to evaluate the theorems on explicit
schedules.  `demoA` runs two synchronous submissions to completion with no
cancellation: the first increments the shared counter and returns it, the
second reports a task failure (while also producing a result, which the
failure branch discards). -/

def taskIncAndRead : ThreadSafeTask := fun _ =>
  { ops := [fun s => s + 1], res := fun s => some s, err := fun _ => none }

def taskFailBoth : ThreadSafeTask := fun _ =>
  { ops := [], res := fun _ => some 7, err := fun _ => some 5 }

def demoASpec : Bool → CtrlSpec := fun b =>
  if b then
    { ctrlThreadSafeCtx := { controlFunc := taskFailBoth, args := none }, sync := true }
  else
    { ctrlThreadSafeCtx := { controlFunc := taskIncAndRead, args := none }, sync := true }

def demoA0 : Config Bool := initConfig demoASpec 0

def demoA1 : Config Bool :=
  { demoA0 with
    clients := Function.update demoA0.clients false
      ({ demoA0.clients false with sendBuf := false, phase := .parkedCtrl }) }

def demoA2 : Config Bool :=
  { demoA1 with
    loop := .executing false (bodyOf demoASpec false).ops
    clients := Function.update demoA1.clients false
      ({ demoA1.clients false with
         phase := if (demoASpec false).sync then .selecting else .finished })
    execOrder := demoA1.execOrder ++ [false] }

def demoA3 : Config Bool :=
  { demoA2 with shared := demoA2.shared + 1, loop := .executing false [] }

def demoA4 : Config Bool :=
  { demoA3 with
    loop := .idle
    clients := Function.update demoA3.clients false
      (markExecuted
        (if (demoASpec false).sync then
          handleSyncReply (demoA3.clients false)
            ((bodyOf demoASpec false).err demoA3.shared)
            ((bodyOf demoASpec false).res demoA3.shared)
        else demoA3.clients false)
        ((bodyOf demoASpec false).res demoA3.shared)
        ((bodyOf demoASpec false).err demoA3.shared)) }

def demoA5 : Config Bool :=
  { demoA4 with
    clients := Function.update demoA4.clients false
      ({ demoA4.clients false with
         ctrlChannelReplies := some ({ buf := none, closed := true })
         replyv := some 1, received := true, phase := .finished }) }

def demoA6 : Config Bool :=
  { demoA5 with
    clients := Function.update demoA5.clients true
      ({ demoA5.clients true with sendBuf := false, phase := .parkedCtrl }) }

def demoA7 : Config Bool :=
  { demoA6 with
    loop := .executing true (bodyOf demoASpec true).ops
    clients := Function.update demoA6.clients true
      ({ demoA6.clients true with
         phase := if (demoASpec true).sync then .selecting else .finished })
    execOrder := demoA6.execOrder ++ [true] }

def demoA8 : Config Bool :=
  { demoA7 with
    loop := .idle
    clients := Function.update demoA7.clients true
      (markExecuted
        (if (demoASpec true).sync then
          handleSyncReply (demoA7.clients true)
            ((bodyOf demoASpec true).err demoA7.shared)
            ((bodyOf demoASpec true).res demoA7.shared)
        else demoA7.clients true)
        ((bodyOf demoASpec true).res demoA7.shared)
        ((bodyOf demoASpec true).err demoA7.shared)) }

def demoA9 : Config Bool :=
  { demoA8 with
    clients := Function.update demoA8.clients true
      ({ demoA8.clients true with
         ctrlErrorChannel := some ({ buf := none, closed := true })
         errv := some (.taskErr 5), phase := .finished }) }

theorem demoA_step01 : Step demoASpec demoA0 demoA1 :=
  Step.selSend demoA0 false rfl rfl

theorem demoA_step12 : Step demoASpec demoA1 demoA2 :=
  Step.loopDequeue demoA1 false rfl rfl

theorem demoA_step23 : Step demoASpec demoA2 demoA3 :=
  Step.loopMicro demoA2 false (fun s => s + 1) [] rfl

theorem demoA_step34 : Step demoASpec demoA3 demoA4 :=
  Step.loopFinish demoA3 false rfl (fun _ => ⟨rfl, rfl⟩)

theorem demoA_step45 : Step demoASpec demoA4 demoA5 :=
  Step.selReply demoA4 false { buf := some (some 1), closed := true } (some 1)
    rfl rfl rfl

theorem demoA_step56 : Step demoASpec demoA5 demoA6 :=
  Step.selSend demoA5 true rfl rfl

theorem demoA_step67 : Step demoASpec demoA6 demoA7 :=
  Step.loopDequeue demoA6 true rfl rfl

theorem demoA_step78 : Step demoASpec demoA7 demoA8 :=
  Step.loopFinish demoA7 true rfl (fun _ => ⟨rfl, rfl⟩)

theorem demoA_step89 : Step demoASpec demoA8 demoA9 :=
  Step.selErr demoA8 true { buf := some 5, closed := true } 5 rfl rfl rfl

theorem demoA_reach3 : Reachable demoASpec (initConfig demoASpec 0) demoA3 :=
  Relation.ReflTransGen.head demoA_step01
    (Relation.ReflTransGen.head demoA_step12
      (Relation.ReflTransGen.head demoA_step23 Relation.ReflTransGen.refl))

theorem demoA_reach9 : Reachable demoASpec (initConfig demoASpec 0) demoA9 :=
  Relation.ReflTransGen.trans demoA_reach3
    (Relation.ReflTransGen.head demoA_step34
      (Relation.ReflTransGen.head demoA_step45
        (Relation.ReflTransGen.head demoA_step56
          (Relation.ReflTransGen.head demoA_step67
            (Relation.ReflTransGen.head demoA_step78
              (Relation.ReflTransGen.head demoA_step89
                Relation.ReflTransGen.refl))))))


/-- C1 witness: in the concrete two-client run, with the loop back in its
`select`, the final shared state is a serial application of some
duplicate-free dequeue order of the submitted tasks. -/
theorem serial_execution_of_tasks_witness :
    (demoA9.loop = .idle ∨ demoA9.loop = .stopped) ∧
      (∃ order : List Bool, order.Nodup ∧ demoA9.shared = foldOrder demoASpec 0 order) :=
  ⟨Or.inl rfl, serial_execution_of_tasks demoA_reach9 (Or.inl rfl)⟩

/-- C5 witness: the first client of `demoA` executed with result
`some 1` and no failure, and its call returned exactly that result with
the failure unset. -/
theorem sync_result_returned_verbatim_witness :
    (demoA9.clients false).gExecuted = some (some 1, none) ∧
      (demoA9.clients false).errv = none ∧
      (demoA9.clients false).received = true ∧
      (demoA9.clients false).replyv = some 1 :=
  ⟨rfl, sync_result_returned_verbatim demoA_reach9 rfl rfl rfl rfl⟩

/-- C6 witness: the second client of `demoA` executed with task failure
`5`, and its call returned the zero-valued result and that failure. -/
theorem sync_failure_returned_verbatim_witness :
    (demoA9.clients true).gExecuted = some (some 7, some 5) ∧
      (demoA9.clients true).errv = some (.taskErr 5) ∧
      (demoA9.clients true).replyv = none :=
  ⟨rfl, sync_failure_returned_verbatim demoA_reach9 rfl rfl rfl rfl⟩

/-- C9 witness: the second client of `demoA` produced both a non-nil
result (`7`) and a non-nil failure (`5`); only the failure was delivered
and the produced result was discarded. -/
theorem sync_failure_priority_discards_result_witness :
    (demoA9.clients true).gExecuted = some (some 7, some 5) ∧
      (demoA9.clients true).errv = some (.taskErr 5) ∧
      (demoA9.clients true).replyv = none ∧
      (demoA9.clients true).replyv ≠ some 7 :=
  ⟨rfl, sync_failure_priority_discards_result demoA_reach9 rfl rfl rfl rfl⟩

/-- C7 (amended) witness: the discipline of the reply/failure channels,
evaluated on the completed second client of `demoA`. -/
theorem channel_single_use_discipline_witness :
    (demoA9.clients true).gReplyWrites + (demoA9.clients true).gErrWrites ≤ 1 ∧
    (demoA9.clients true).gReplyCloses = (demoA9.clients true).gReplyWrites ∧
    (demoA9.clients true).gErrCloses = (demoA9.clients true).gErrWrites ∧
    (∀ r e', (demoA9.clients true).gExecuted = some (r, e') →
      (demoA9.clients true).gReplyWrites + (demoA9.clients true).gErrWrites = 1) ∧
    (true ∉ demoA9.execOrder →
      (demoA9.clients true).gReplyWrites = 0 ∧ (demoA9.clients true).gErrWrites = 0 ∧
      chClosed (demoA9.clients true).ctrlChannelReplies = false ∧
      chClosed (demoA9.clients true).ctrlErrorChannel = false) :=
  channel_single_use_discipline demoA_reach9 rfl

/-- C10 witness: in the middle of `demoA` the loop is executing the first
client's task, and that client's channels are still empty and unclosed, so
the upcoming reply delivery cannot block. -/
theorem sync_delivery_never_blocks_witness :
    demoA3.loop = .executing false [] ∧
      chBuf (demoA3.clients false).ctrlChannelReplies = none ∧
      chBuf (demoA3.clients false).ctrlErrorChannel = none ∧
      chClosed (demoA3.clients false).ctrlChannelReplies = false ∧
      chClosed (demoA3.clients false).ctrlErrorChannel = false ∧
      sendTargetFree (demoA3.clients false) ((bodyOf demoASpec false).err demoA3.shared) :=
  ⟨rfl, sync_delivery_never_blocks demoA_reach3 rfl rfl⟩


/-! `demoB`: a single asynchronous submission whose task mutates the state
and reports a failure; the loop executes it and discards everything. -/

def taskAsyncIncFail : ThreadSafeTask := fun _ =>
  { ops := [fun s => s + 2], res := fun _ => none, err := fun _ => some 3 }

def demoBSpec : Unit → CtrlSpec := fun _ =>
  { ctrlThreadSafeCtx := { controlFunc := taskAsyncIncFail, args := none }, sync := false }

def demoB0 : Config Unit := initConfig demoBSpec 0

def demoB1 : Config Unit :=
  { demoB0 with
    loop := .executing () (bodyOf demoBSpec ()).ops
    clients := Function.update demoB0.clients ()
      ({ demoB0.clients () with
         phase := if (demoBSpec ()).sync then .selecting else .finished })
    execOrder := demoB0.execOrder ++ [()] }

def demoB2 : Config Unit :=
  { demoB1 with shared := demoB1.shared + 2, loop := .executing () [] }

def demoB3 : Config Unit :=
  { demoB2 with
    loop := .idle
    clients := Function.update demoB2.clients ()
      (markExecuted
        (if (demoBSpec ()).sync then
          handleSyncReply (demoB2.clients ())
            ((bodyOf demoBSpec ()).err demoB2.shared)
            ((bodyOf demoBSpec ()).res demoB2.shared)
        else demoB2.clients ())
        ((bodyOf demoBSpec ()).res demoB2.shared)
        ((bodyOf demoBSpec ()).err demoB2.shared)) }

theorem demoB_step01 : Step demoBSpec demoB0 demoB1 :=
  Step.loopDequeue demoB0 () rfl rfl

theorem demoB_step12 : Step demoBSpec demoB1 demoB2 :=
  Step.loopMicro demoB1 () (fun s => s + 2) [] rfl

theorem demoB_step23 : Step demoBSpec demoB2 demoB3 :=
  Step.loopFinish demoB2 () rfl (fun h => by cases h)

theorem demoB_reach3 : Reachable demoBSpec (initConfig demoBSpec 0) demoB3 :=
  Relation.ReflTransGen.head demoB_step01
    (Relation.ReflTransGen.head demoB_step12
      (Relation.ReflTransGen.head demoB_step23 Relation.ReflTransGen.refl))

/-- C8 witness: the asynchronous submission of `demoB` was dequeued and
executed, producing a failure — and nothing of it is observable to the
caller. -/
theorem async_completion_unobservable_witness :
    (demoB3.clients ()).gExecuted = some (none, some 3) ∧
      () ∈ demoB3.execOrder ∧ (demoB3.clients ()).received = false ∧
      (demoB3.clients ()).errv = none ∧ (demoB3.clients ()).replyv = none ∧
      (demoB3.clients ()).ctrlChannelReplies = none ∧
      (demoB3.clients ()).ctrlErrorChannel = none := by
  have h := @async_completion_unobservable Unit _ demoBSpec 0 demoB3 () none
    (some 3) demoB_reach3 rfl rfl
  exact ⟨rfl, h.1, h.2.1, h.2.2.1, h.2.2.2.1, h.2.2.2.2.1, h.2.2.2.2.2⟩

/-! `demoC` and its variants: a single synchronous submission whose task
returns `some 1` with no failure.  The `demoC` schedule executes the task,
delivers the reply into the buffered channel, and then lets the scope end
before the helper reads the reply, so the helper's `select` picks
`<-h.ctx.Done()` and the caller resolves as Canceled although the task had
executed.  The `demoD` schedule lets the helper commit to the blocking
control-channel send before the loop observes the ended scope.  The
`demoF` schedule completes normally and then stops the loop. -/

def taskRetOne : ThreadSafeTask := fun _ =>
  { ops := [], res := fun _ => some 1, err := fun _ => none }

def demoCSpec : Unit → CtrlSpec := fun _ =>
  { ctrlThreadSafeCtx := { controlFunc := taskRetOne, args := none }, sync := true }

def demoC0 : Config Unit := initConfig demoCSpec 0

def demoC1 : Config Unit :=
  { demoC0 with
    clients := Function.update demoC0.clients ()
      ({ demoC0.clients () with sendBuf := false, phase := .parkedCtrl }) }

def demoC2 : Config Unit :=
  { demoC1 with
    loop := .executing () (bodyOf demoCSpec ()).ops
    clients := Function.update demoC1.clients ()
      ({ demoC1.clients () with
         phase := if (demoCSpec ()).sync then .selecting else .finished })
    execOrder := demoC1.execOrder ++ [()] }

def demoC3 : Config Unit :=
  { demoC2 with
    loop := .idle
    clients := Function.update demoC2.clients ()
      (markExecuted
        (if (demoCSpec ()).sync then
          handleSyncReply (demoC2.clients ())
            ((bodyOf demoCSpec ()).err demoC2.shared)
            ((bodyOf demoCSpec ()).res demoC2.shared)
        else demoC2.clients ())
        ((bodyOf demoCSpec ()).res demoC2.shared)
        ((bodyOf demoCSpec ()).err demoC2.shared)) }

def demoC4 : Config Unit := { demoC3 with scopeEnded := true }

def demoC5 : Config Unit :=
  { demoC4 with
    clients := Function.update demoC4.clients ()
      ({ demoC4.clients () with errv := some .ctxCanceled, phase := .finished }) }

theorem demoC_step01 : Step demoCSpec demoC0 demoC1 :=
  Step.selSend demoC0 () rfl rfl

theorem demoC_step12 : Step demoCSpec demoC1 demoC2 :=
  Step.loopDequeue demoC1 () rfl rfl

theorem demoC_step23 : Step demoCSpec demoC2 demoC3 :=
  Step.loopFinish demoC2 () rfl (fun _ => ⟨rfl, rfl⟩)

theorem demoC_step34 : Step demoCSpec demoC3 demoC4 :=
  Step.scopeEnd demoC3 rfl

theorem demoC_step45 : Step demoCSpec demoC4 demoC5 :=
  Step.selDone demoC4 () rfl rfl

theorem demoC_reach3 : Reachable demoCSpec (initConfig demoCSpec 0) demoC3 :=
  Relation.ReflTransGen.head demoC_step01
    (Relation.ReflTransGen.head demoC_step12
      (Relation.ReflTransGen.head demoC_step23 Relation.ReflTransGen.refl))

theorem demoC_reach35 : Relation.ReflTransGen (Step demoCSpec) demoC3 demoC5 :=
  Relation.ReflTransGen.head demoC_step34
    (Relation.ReflTransGen.head demoC_step45 Relation.ReflTransGen.refl)

theorem demoC_reach5 : Reachable demoCSpec (initConfig demoCSpec 0) demoC5 :=
  Relation.ReflTransGen.trans demoC_reach3 demoC_reach35

/-- C2 counterexample: a synchronous submission whose task has already
executed (with a result and no failure) can still resolve as Canceled —
after the reply was buffered, the scope ends and the helper's `select`
picks `<-h.ctx.Done()` over the ready reply channel, so the caller gets
`context.Canceled`.  This refutes "once the task has started executing,
the submission always reaches Completed and never resolves as Canceled"
(and with it the claimed equivalence); the repository's own test
`Test_ShouldStopTaskExecutionWhenHandlerContextIsCancelledDuringSynchronousSend`
asserts exactly this Canceled-while-executing behaviour. -/
theorem canceled_after_execution_counterexample :
    Reachable demoCSpec (initConfig demoCSpec 0) demoC3 ∧
    (demoC3.clients ()).gExecuted = some (some 1, none) ∧
    (demoC3.clients ()).phase = .selecting ∧
    (demoC3.clients ()).errv = none ∧
    Relation.ReflTransGen (Step demoCSpec) demoC3 demoC5 ∧
    (demoC5.clients ()).phase = .finished ∧
    (demoC5.clients ()).errv = some .ctxCanceled ∧
    (demoC5.clients ()).gExecuted = some (some 1, none) :=
  ⟨demoC_reach3, rfl, rfl, rfl, demoC_reach35, rfl, rfl, rfl⟩

/-- C2 (amended) witness: the canceled resolution of `demoC` indeed
happened with the scope ended. -/
theorem canceled_implies_scope_ended_witness :
    (demoC5.clients ()).errv = some .ctxCanceled ∧ demoC5.scopeEnded = true :=
  ⟨rfl, @canceled_implies_scope_ended Unit _ demoCSpec 0 demoC5 () demoC_reach5 rfl⟩

def demoD1 : Config Unit := { demoC0 with scopeEnded := true }

def demoD2 : Config Unit :=
  { demoD1 with
    clients := Function.update demoD1.clients ()
      ({ demoD1.clients () with sendBuf := false, phase := .parkedCtrl }) }

def demoD3 : Config Unit := { demoD2 with loop := .stopped }

theorem demoD_step01 : Step demoCSpec demoC0 demoD1 :=
  Step.scopeEnd demoC0 rfl

theorem demoD_step12 : Step demoCSpec demoD1 demoD2 :=
  Step.selSend demoD1 () rfl rfl

theorem demoD_step23 : Step demoCSpec demoD2 demoD3 :=
  Step.loopStop demoD2 rfl rfl

theorem demoD_reach3 : Reachable demoCSpec (initConfig demoCSpec 0) demoD3 :=
  Relation.ReflTransGen.head demoD_step01
    (Relation.ReflTransGen.head demoD_step12
      (Relation.ReflTransGen.head demoD_step23 Relation.ReflTransGen.refl))

/-- C3 is violated by the code (code bug): the inner
`h.ctrlChannel <- ctrlAction` of the helper goroutine has no `ctx.Done()`
alternative, so once the helper has committed to the hand-off and the loop
observes the ended scope first, the helper is parked forever: in every
future configuration the submission is still parked, never resolves (no
CancellationFailure, no result), the caller blocks forever on `chanDone`,
and the helper goroutine survives past scope end — contradicting the
claim and the repository's own test
`Test_ShouldReturnErrorForAllTheWaitingSynchronousTaskIfTheContextIsCanceled`. -/
theorem sync_caller_blocked_forever_after_cancel :
    Reachable demoCSpec (initConfig demoCSpec 0) demoD3 ∧
    demoD3.scopeEnded = true ∧
    demoD3.loop = .stopped ∧
    (demoD3.clients ()).phase = .parkedCtrl ∧
    ∀ c', Relation.ReflTransGen (Step demoCSpec) demoD3 c' →
      (c'.clients ()).phase = .parkedCtrl ∧ (c'.clients ()).errv = none ∧
        (c'.clients ()).received = false := by
  refine ⟨demoD_reach3, rfl, rfl, rfl, ?_⟩
  intro c' hr
  have h2 := (@reach_frozen Unit _ demoCSpec demoD3 c' () hr rfl (by decide)).1
  rw [h2]
  exact ⟨rfl, rfl, rfl⟩

def demoF4 : Config Unit :=
  { demoC3 with
    clients := Function.update demoC3.clients ()
      ({ demoC3.clients () with
         ctrlChannelReplies := some ({ buf := none, closed := true })
         replyv := some 1, received := true, phase := .finished }) }

def demoF5 : Config Unit := { demoF4 with scopeEnded := true }

def demoF6 : Config Unit := { demoF5 with loop := .stopped }

theorem demoF_step34 : Step demoCSpec demoC3 demoF4 :=
  Step.selReply demoC3 () { buf := some (some 1), closed := true } (some 1)
    rfl rfl rfl

theorem demoF_step45 : Step demoCSpec demoF4 demoF5 :=
  Step.scopeEnd demoF4 rfl

theorem demoF_step56 : Step demoCSpec demoF5 demoF6 :=
  Step.loopStop demoF5 rfl rfl

theorem demoF_reach6 : Reachable demoCSpec (initConfig demoCSpec 0) demoF6 :=
  Relation.ReflTransGen.trans demoC_reach3
    (Relation.ReflTransGen.head demoF_step34
      (Relation.ReflTransGen.head demoF_step45
        (Relation.ReflTransGen.head demoF_step56 Relation.ReflTransGen.refl)))

/-- C7 counterexample: `handleSyncReply` closes only the channel it used.
In this completed run the submission delivered its result through the
reply channel (one write, one close), yet the error channel is not closed
in the final configuration nor in any future one — refuting "both channels
are closed after the single use". -/
theorem error_channel_never_closed_counterexample :
    Reachable demoCSpec (initConfig demoCSpec 0) demoF6 ∧
    (demoF6.clients ()).phase = .finished ∧
    (demoF6.clients ()).gReplyWrites = 1 ∧
    chClosed (demoF6.clients ()).ctrlChannelReplies = true ∧
    chClosed (demoF6.clients ()).ctrlErrorChannel = false ∧
    (demoF6.clients ()).gErrCloses = 0 ∧
    ∀ c', Relation.ReflTransGen (Step demoCSpec) demoF6 c' →
      chClosed (c'.clients ()).ctrlErrorChannel = false ∧
        (c'.clients ()).gErrCloses = 0 := by
  refine ⟨demoF_reach6, rfl, rfl, rfl, rfl, rfl, ?_⟩
  intro c' hr
  have h2 := (@reach_frozen Unit _ demoCSpec demoF6 c' () hr rfl (by decide)).1
  rw [h2]
  exact ⟨rfl, rfl⟩

def demoE1 : Config Unit := { demoB0 with scopeEnded := true }

def demoE2 : Config Unit :=
  { demoE1 with
    loop := .executing () (bodyOf demoBSpec ()).ops
    clients := Function.update demoE1.clients ()
      ({ demoE1.clients () with
         phase := if (demoBSpec ()).sync then .selecting else .finished })
    execOrder := demoE1.execOrder ++ [()] }

def demoE3 : Config Unit :=
  { demoE2 with shared := demoE2.shared + 2, loop := .executing () [] }

def demoE4 : Config Unit :=
  { demoE3 with
    loop := .idle
    clients := Function.update demoE3.clients ()
      (markExecuted
        (if (demoBSpec ()).sync then
          handleSyncReply (demoE3.clients ())
            ((bodyOf demoBSpec ()).err demoE3.shared)
            ((bodyOf demoBSpec ()).res demoE3.shared)
        else demoE3.clients ())
        ((bodyOf demoBSpec ()).res demoE3.shared)
        ((bodyOf demoBSpec ()).err demoE3.shared)) }

def demoE5 : Config Unit := { demoE1 with loop := .stopped }

theorem demoE_step01 : Step demoBSpec demoB0 demoE1 :=
  Step.scopeEnd demoB0 rfl

theorem demoE_step12 : Step demoBSpec demoE1 demoE2 :=
  Step.loopDequeue demoE1 () rfl rfl

theorem demoE_step23 : Step demoBSpec demoE2 demoE3 :=
  Step.loopMicro demoE2 () (fun s => s + 2) [] rfl

theorem demoE_step34 : Step demoBSpec demoE3 demoE4 :=
  Step.loopFinish demoE3 () rfl (fun h => by cases h)

theorem demoE_step15 : Step demoBSpec demoE1 demoE5 :=
  Step.loopStop demoE1 rfl rfl

theorem demoE_reach1 : Reachable demoBSpec (initConfig demoBSpec 0) demoE1 :=
  Relation.ReflTransGen.head demoE_step01 Relation.ReflTransGen.refl

theorem demoE_reach14 : Relation.ReflTransGen (Step demoBSpec) demoE1 demoE4 :=
  Relation.ReflTransGen.head demoE_step12
    (Relation.ReflTransGen.head demoE_step23
      (Relation.ReflTransGen.head demoE_step34 Relation.ReflTransGen.refl))

theorem demoE_reach15 : Relation.ReflTransGen (Step demoBSpec) demoE1 demoE5 :=
  Relation.ReflTransGen.head demoE_step15 Relation.ReflTransGen.refl

/-- C4 is violated by the code (code bug): `AsynchronousActionSend` is a
bare blocking send on the unbuffered control channel, with no
`ctx.Done()` alternative.  First schedule: with the scope already ended
(and nothing yet dequeued), the loop's `select` — whose choice among ready
cases is nondeterministic — still dequeues the parked asynchronous
submission and fully executes the task, mutating the shared state; the
repository's own test expects such a task never to run
(`panicTask`, "Should not be triggered").  Second schedule: the loop stops
first and the asynchronous caller stays parked on the channel in every
future configuration — the hand-off hangs forever instead of aborting. -/
theorem async_send_after_scope_end_executes_or_hangs :
    (Reachable demoBSpec (initConfig demoBSpec 0) demoE1 ∧
      demoE1.scopeEnded = true ∧ demoE1.execOrder = [] ∧ demoE1.shared = 0 ∧
      Relation.ReflTransGen (Step demoBSpec) demoE1 demoE4 ∧
      demoE4.execOrder = [()] ∧ demoE4.shared = 2 ∧
      (demoE4.clients ()).gExecuted = some (none, some 3)) ∧
    (Relation.ReflTransGen (Step demoBSpec) demoE1 demoE5 ∧
      demoE5.loop = .stopped ∧ (demoE5.clients ()).phase = .parkedCtrl ∧
      ∀ c', Relation.ReflTransGen (Step demoBSpec) demoE5 c' →
        (c'.clients ()).phase = .parkedCtrl) := by
  refine ⟨⟨demoE_reach1, rfl, rfl, rfl, demoE_reach14, rfl, rfl, rfl⟩,
    demoE_reach15, rfl, rfl, ?_⟩
  intro c' hr
  have h2 := (@reach_frozen Unit _ demoBSpec demoE5 c' () hr rfl (by decide)).1
  rw [h2]
  rfl

end ThreadSafeAction
